import Mathlib

/-!
# evo_logger: record lifecycle and level filtering

A shallow embedding of the logging core of `evo_logger`
(`log/LogType.h`, `log/OstreamColor.h`, `log/Writer.h`, `log/Logger.h`) together with
theorems about the level mask, the pending buffer, the terminal echo and the flush to file.

Conventions of the embedding.

* `LogType` is `unsigned int`; masks and levels are natural numbers, and the one operation
  whose result depends on the width (`~`) is taken over 32 bits.
* Everything the code asks of its surroundings is an explicit input of the call that asks:
  the clock, the outcome of `push_back`, the home directory, `stat`, `mkdir`, whether the
  `ofstream` opens and how many lines it accepts.
* The stream `_os` is the string of characters written to it so far; a file is the list of
  lines written to it, one entry per `out << ... << std::endl`.
* `evo_logger/time/Time.h` is not among the sources: a time point is a tick count and
  `evo::Time::toString` is a parameter `tfmt` of every definition that uses it.
-/

namespace evo

/-- Modelled from the spec: `evo::Time` (evo_logger/time/Time.h is not among the sources) is
"a point in time, captured at creation"; it is represented by a tick count. -/
abbrev Time := Nat

/-- The `using LogType = unsigned int` of LogType.h. -/
abbrev LogType := Nat

namespace Log

/-- Enumerator `INFO = 1` of `enum Log : LogType`. -/
abbrev INFO : LogType := 1
/-- Enumerator `DEBUG = 2`. -/
abbrev DEBUG : LogType := 2
/-- Enumerator `WARN = 4`. -/
abbrev WARN : LogType := 4
/-- Enumerator `ERROR = 8`. -/
abbrev ERROR : LogType := 8
/-- Enumerator `ALL = 0xFFFFFFFF`. -/
abbrev ALL : LogType := 0xFFFFFFFF

end Log

/-- The table `LEVEL_STR` of LogType.h: nine entries, indexed by the numeric level. -/
def LEVEL_STR : List String :=
  ["0", "INFO ", "DEBUG", "3", "WARN ", "5", "6", "7", "ERROR"]

/-- The struct `LogObj`: time stamp, level and message of one log. -/
structure LogObj where
  stamp : Time
  level : LogType
  text : String
deriving DecidableEq, Repr

/-- The function `LogObj::parse`. `LEVEL_STR[...]` is `std::vector::operator[]`, which is
only defined for an index below the size of the table; outside it the result is `none`. -/
def LogObj.parse (tfmt : Time → String) (obj : LogObj) : Option String :=
  match LEVEL_STR[obj.level]? with
  | some label => some ("[" ++ tfmt obj.stamp ++ "]-[" ++ label ++ "]  " ++ obj.text)
  | none => none

/-- The `enum class Color : unsigned int` of OstreamColor.h. -/
inductive Color where
  | F_RED | F_GREEN | F_BLUE | F_DEFAULT | F_LIGHT_RED | F_LIGHT_BLUE
  | B_RED | B_GREEN | B_BLUE | B_DEFAULT
deriving DecidableEq, Repr

/-- The numeric value of each enumerator of `Color`. -/
def Color.toNat : Color → Nat
  | F_RED => 31
  | F_GREEN => 32
  | F_BLUE => 34
  | F_DEFAULT => 39
  | F_LIGHT_RED => 91
  | F_LIGHT_BLUE => 94
  | B_RED => 41
  | B_GREEN => 42
  | B_BLUE => 44
  | B_DEFAULT => 49

/-- The class `OSColor`: one colour. -/
structure OSColor where
  _col : Color
deriving DecidableEq, Repr

/-- The `operator<<(std::ostream&, const OSColor&)`: the stream after the escape sequence
`"\33[" << static_cast<unsigned int>(rhs._col) << "m"` has been written to it. -/
def OSColor.put (os : String) (rhs : OSColor) : String :=
  os ++ "\x1b[" ++ toString rhs._col.toNat ++ "m"

/-- The file system as far as the logger sees it: the lines of the file at each path. -/
abbrev FileSystem := String → List String

/-- The file system after `lines` have been appended to the file at `path`. -/
def FileSystem.append (fs : FileSystem) (path : String) (lines : List String) : FileSystem :=
  fun p => if p = path then fs p ++ lines else fs p

/-- What one `Writer::write` call meets on disk: whether `out.open` succeeds, and how many
lines the stream accepts before it fails (`none`: every write succeeds). -/
structure StreamEnv where
  openOk : Bool
  accepted : Option Nat
deriving DecidableEq, Repr

/-- The class `Writer`: the path of the log file. -/
structure Writer where
  _file : String
deriving DecidableEq, Repr

/-- The loop of `Writer::write`, `for(auto& e : obj) out << LogObj::parse(e) << std::endl`:
the lines it writes, one per element and in order; it is defined when every element can be
parsed. -/
def Writer.renderAll (tfmt : Time → String) : List LogObj → Option (List String)
  | [] => some []
  | e :: es =>
    match LogObj.parse tfmt e with
    | some str =>
      match Writer.renderAll tfmt es with
      | some rest => some (str :: rest)
      | none => none
    | none => none

/-- The function `Writer::write`: the file system and the caller's vector after the call.
A failed open returns at once; otherwise every element is parsed and written as a line
(a stream that has failed drops what is written to it), and the vector is cleared. -/
def Writer.write (tfmt : Time → String) (w : Writer) (env : StreamEnv) (fs : FileSystem)
    (obj : List LogObj) : Option (FileSystem × List LogObj) :=
  if env.openOk then
    match Writer.renderAll tfmt obj with
    | some lines =>
      match env.accepted with
      | none => some (fs.append w._file lines, [])
      | some n => some (fs.append w._file (lines.take n), [])
    | none => none
  else
    some (fs, obj)

/-- The constant `LOG_FOLDER` of Logger.h. -/
def LOG_FOLDER : String := ".evocortex"

/-- The state of the singleton `Logger`: its data members (the colours are constants). -/
structure Logger where
  _logs : List LogObj
  _current_log_level : LogType
  _name : String
  _writer : Option Writer
  _os : String
deriving DecidableEq, Repr

/-- The member `_color_def_f`, set by the constructor. -/
def Logger._color_def_f : OSColor := ⟨Color.F_DEFAULT⟩
/-- The member `_color_def_b`, set by the constructor. -/
def Logger._color_def_b : OSColor := ⟨Color.B_DEFAULT⟩

/-- The constructor `Logger::Logger()`: no logs, every level active, no writer. -/
def Logger.new : Logger :=
  { _logs := [], _current_log_level := Log.ALL, _name := "", _writer := none, _os := "" }

/-- What `Logger::initialize` asks of its surroundings: `Utility::getHomeDir()`, the two
`Utility::directoryExists` answers, whether `mkdir` returned 0, and `evo::Time::now()`. -/
structure InitEnv where
  homeDir : String
  dirExists : Bool
  mkdirOk : Bool
  dirExistsAfter : Bool
  now : Time
deriving DecidableEq, Repr

/-- The function `Logger::initialize(name)`. -/
def Logger.initialise (tfmt : Time → String) (env : InitEnv) (s : Logger) (name : String) :
    Logger :=
  match s._writer with
  | some _ => s
  | none =>
    let s1 := { s with _name := name }
    let home_folder := env.homeDir ++ "/" ++ LOG_FOLDER ++ "/"
    let failed := !env.dirExists && (!env.mkdirOk || !env.dirExistsAfter)
    let s2 :=
      if failed then
        { s1 with _os := s1._os ++ "LOG_FOLDER could not be set.... take current Direktory"
                          ++ "\n" }
      else s1
    let log_folder := if failed then "" else home_folder
    let log_file := tfmt env.now ++ "-" ++ s2._name ++ ".log"
    { s2 with _writer := some ⟨log_folder ++ log_file⟩ }

/-- The function `Logger::forceOutput`. -/
def Logger.forceOutput (s : Logger) : Logger :=
  { s with _current_log_level := s._current_log_level ||| Log.ERROR }

/-- The function `Logger::setLogLevel`. -/
def Logger.setLogLevel (s : Logger) (level : LogType) : Logger :=
  Logger.forceOutput { s with _current_log_level := level }

/-- The function `Logger::appendLogLevel`. -/
def Logger.appendLogLevel (s : Logger) (level : LogType) : Logger :=
  Logger.forceOutput { s with _current_log_level := s._current_log_level ||| level }

/-- The operator `~` on `unsigned int`: every one of the 32 bits flipped. -/
def LogType.complement (x : LogType) : LogType := x ^^^ 0xFFFFFFFF

/-- The function `Logger::removeLogLevel`. -/
def Logger.removeLogLevel (s : Logger) (level : LogType) : Logger :=
  Logger.forceOutput
    { s with _current_log_level := s._current_log_level &&& LogType.complement level }

/-- The test of Logger.h line 256, `static_cast<LogType>(level) & _current_log_level`:
whether a log of this level is echoed to the stream. -/
def Logger.isEnabled (s : Logger) (level : LogType) : Bool :=
  level &&& s._current_log_level != 0

/-- How a call ends: it returns, the process ends in `exit(0)` (with the state at that
point), or the behaviour is undefined. -/
inductive Outcome (σ : Type) where
  | returned (s : σ)
  | exited (s : σ)
  | undefined

/-- What one `Logger::log` call meets: `evo::Time::now()` and whether `push_back` succeeds
(`false`: it throws `std::bad_alloc`). -/
structure LogEnv where
  now : Time
  pushOk : Bool
deriving DecidableEq, Repr

/-- The function `Logger::log(level, text)`. The object is appended (the `const` text and
the stamp are copied by the move, so `obj` still renders the same afterwards), then echoed
if its level is active and otherwise only the default colours are written. When `push_back`
throws, the handler writes its message and calls `exit(0)`; the `_logs.clear()` after it is
never reached. -/
def Logger.log (tfmt : Time → String) (env : LogEnv) (s : Logger) (level : LogType)
    (text : String) : Outcome Logger :=
  let obj : LogObj := { stamp := env.now, level := level, text := text }
  if env.pushOk then
    let s1 := { s with _logs := s._logs ++ [obj] }
    if s1.isEnabled level then
      match LogObj.parse tfmt obj with
      | some str =>
        .returned { s1 with _os := OSColor.put (OSColor.put (s1._os ++ str)
                                      Logger._color_def_b) Logger._color_def_f ++ "\n" }
      | none => .undefined
    else
      .returned { s1 with _os := OSColor.put (OSColor.put s1._os Logger._color_def_b)
                                    Logger._color_def_f }
  else
    .exited { s with _os := s._os ++ ("Bad alloc in _logs.push_back... will delete all logs " ++
                                        "to prevent more damage") ++ "\n" }

/-- The logger together with the files on disk. -/
structure World where
  logger : Logger
  files : FileSystem

/-- What one flush meets: the surroundings of the `initialize("EVO")` it may run, and of
the `Writer::write`. -/
structure FlushEnv where
  init : InitEnv
  stream : StreamEnv
deriving DecidableEq, Repr

/-- The function `Logger::writeLog()`: bind the writer under the name `"EVO"` if there is
none, then hand `_logs` to `Writer::write`. -/
def Logger.writeLog (tfmt : Time → String) (env : FlushEnv) (w : World) : Outcome World :=
  let s := if w.logger._writer.isNone then w.logger.initialise tfmt env.init "EVO"
           else w.logger
  match s._writer with
  | none => .undefined
  | some wr =>
    match wr.write tfmt env.stream w.files s._logs with
    | some (fs, logs) => .returned { logger := { s with _logs := logs }, files := fs }
    | none => .undefined

/-- The destructor `Logger::~Logger()`: the same two steps as `writeLog`. -/
def Logger.destroy (tfmt : Time → String) (env : FlushEnv) (w : World) : Outcome World :=
  let s := if w.logger._writer.isNone then w.logger.initialise tfmt env.init "EVO"
           else w.logger
  match s._writer with
  | none => .undefined
  | some wr =>
    match wr.write tfmt env.stream w.files s._logs with
    | some (fs, logs) => .returned { logger := { s with _logs := logs }, files := fs }
    | none => .undefined

/-- One call on the logger, with what it meets. -/
inductive Op where
  | initialise (env : InitEnv) (name : String)
  | setLogLevel (level : LogType)
  | appendLogLevel (level : LogType)
  | removeLogLevel (level : LogType)
  | log (env : LogEnv) (level : LogType) (text : String)
  | writeLog (env : FlushEnv)
deriving DecidableEq, Repr

/-- The effect of one call on the world. -/
def step (tfmt : Time → String) (w : World) : Op → Outcome World
  | .initialise env name => .returned { w with logger := w.logger.initialise tfmt env name }
  | .setLogLevel level => .returned { w with logger := w.logger.setLogLevel level }
  | .appendLogLevel level => .returned { w with logger := w.logger.appendLogLevel level }
  | .removeLogLevel level => .returned { w with logger := w.logger.removeLogLevel level }
  | .log env level text =>
    match w.logger.log tfmt env level text with
    | .returned s => .returned { w with logger := s }
    | .exited s => .exited { w with logger := s }
    | .undefined => .undefined
  | .writeLog env => Logger.writeLog tfmt env w

/-- A sequence of calls, one after the other; it stops where a call does not return. -/
def run (tfmt : Time → String) : World → List Op → Outcome World
  | w, [] => .returned w
  | w, op :: ops =>
    match step tfmt w op with
    | .returned w1 => run tfmt w1 ops
    | .exited w1 => .exited w1
    | .undefined => .undefined

/-- The world of a freshly constructed logger over the files `fs`. -/
def World.fresh (fs : FileSystem) : World := { logger := Logger.new, files := fs }


/-- A call that meets no failure: a `log` of a named level whose `push_back` succeeds, a
`writeLog` whose file opens and whose stream takes every line; the other calls cannot fail. -/
def Op.nominal : Op → Bool
  | .log env level _ =>
    env.pushOk && decide (level ∈ [Log.INFO, Log.DEBUG, Log.WARN, Log.ERROR])
  | .writeLog env => env.stream.openOk && env.stream.accepted.isNone
  | _ => true

/-- The records of the `log` calls of a sequence, in call order. -/
def logged : List Op → List LogObj
  | [] => []
  | .log env level text :: ops => { stamp := env.now, level := level, text := text } :: logged ops
  | _ :: ops => logged ops

/-- The state of a run relative to the files `fs` it started from and the records `pre`
logged so far: a first part `done` of them has been written, as `lines`, to the bound file
and to no other, and the rest is pending; without a writer nothing has been written. -/
def FlushInv (tfmt : Time → String) (fs : FileSystem) (pre : List LogObj) (w : World) : Prop :=
  ∃ (done : List LogObj) (lines : List String),
    done ++ w.logger._logs = pre
      ∧ done.map (LogObj.parse tfmt) = lines.map some
      ∧ (∀ e ∈ pre, e.level ∈ [Log.INFO, Log.DEBUG, Log.WARN, Log.ERROR])
      ∧ (w.logger._writer = none → done = [] ∧ w.files = fs)
      ∧ (∀ wr, w.logger._writer = some wr → w.files = fs.append wr._file lines)

/-- A stand-in for `evo::Time::toString` in the concrete runs: the tick count in decimal. -/
def sampleFmt : Time → String := fun t => toString t

/-! ## Bits of a mask -/

/-- A single-bit level meets a mask exactly when the mask has that bit. -/
theorem two_pow_and_ne_zero (k x : Nat) : 2 ^ k &&& x ≠ 0 ↔ x.testBit k = true := by
  constructor
  · intro h
    by_contra hk
    apply h
    apply Nat.eq_of_testBit_eq
    intro i
    rw [Nat.testBit_and, Nat.testBit_two_pow, Nat.zero_testBit]
    by_cases hi : k = i
    · subst hi; simp [hk]
    · simp [hi]
  · intro h h0
    have := congrArg (fun y => Nat.testBit y k) h0
    simp [Nat.testBit_and, Nat.testBit_two_pow, h] at this

/-- The test of `isEnabled` for a single-bit level, read on the bit of the mask. -/
theorem isEnabled_two_pow (s : Logger) (k : Nat) :
    s.isEnabled (2 ^ k) = s._current_log_level.testBit k := by
  unfold Logger.isEnabled
  by_cases h : s._current_log_level.testBit k = true
  · rw [h]; simpa using (two_pow_and_ne_zero k _).2 h
  · have h0 : ¬ (2 ^ k &&& s._current_log_level ≠ 0) := fun hc =>
      h ((two_pow_and_ne_zero k _).1 hc)
    simp only [ne_eq, not_not] at h0
    simp [h0, h]

/-- The four named levels as powers of two. -/
theorem isEnabled_INFO (s : Logger) : s.isEnabled Log.INFO = s._current_log_level.testBit 0 :=
  isEnabled_two_pow s 0

theorem isEnabled_DEBUG (s : Logger) :
    s.isEnabled Log.DEBUG = s._current_log_level.testBit 1 :=
  isEnabled_two_pow s 1

theorem isEnabled_WARN (s : Logger) : s.isEnabled Log.WARN = s._current_log_level.testBit 2 :=
  isEnabled_two_pow s 2

theorem isEnabled_ERROR (s : Logger) :
    s.isEnabled Log.ERROR = s._current_log_level.testBit 3 :=
  isEnabled_two_pow s 3

/-- The bits of the mask after `forceOutput`. -/
theorem forceOutput_testBit (s : Logger) (i : Nat) :
    s.forceOutput._current_log_level.testBit i
      = (s._current_log_level.testBit i || decide (i = 3)) := by
  show (s._current_log_level ||| 2 ^ 3).testBit i = _
  rw [Nat.testBit_or, Nat.testBit_two_pow]
  by_cases h : i = 3
  · subst h; simp
  · have : ¬ (3 = i) := fun e => h e.symm
    simp [h, this]

/-- The bits of the 32-bit complement. -/
theorem complement_testBit (x i : Nat) :
    (LogType.complement x).testBit i = (x.testBit i ^^ decide (i < 32)) := by
  show (x ^^^ (2 ^ 32 - 1)).testBit i = _
  rw [Nat.testBit_xor, Nat.testBit_two_pow_sub_one]

/-- A number below `2 ^ 32` has no bit from position 32 on. -/
theorem testBit_eq_false_of_lt (x i : Nat) (hx : x < 2 ^ 32) (hi : 32 ≤ i) :
    x.testBit i = false :=
  Nat.testBit_lt_two_pow (lt_of_lt_of_le hx (Nat.pow_le_pow_right (by decide) hi))


/-! ## The level mask -/

theorem setLogLevel_testBit (s : Logger) (m i : Nat) :
    (s.setLogLevel m)._current_log_level.testBit i = (m.testBit i || decide (i = 3)) :=
  forceOutput_testBit _ i

theorem appendLogLevel_testBit (s : Logger) (m i : Nat) :
    (s.appendLogLevel m)._current_log_level.testBit i
      = ((s._current_log_level.testBit i || m.testBit i) || decide (i = 3)) := by
  unfold Logger.appendLogLevel
  rw [forceOutput_testBit]
  simp [Nat.testBit_or]

theorem removeLogLevel_testBit (s : Logger) (m i : Nat) :
    (s.removeLogLevel m)._current_log_level.testBit i
      = ((s._current_log_level.testBit i && (m.testBit i ^^ decide (i < 32)))
          || decide (i = 3)) := by
  unfold Logger.removeLogLevel
  rw [forceOutput_testBit]
  simp [Nat.testBit_and, complement_testBit]

/-- `initialize` leaves the mask and the pending logs alone. -/
theorem initialise_mask (tfmt : Time → String) (env : InitEnv) (s : Logger) (name : String) :
    (s.initialise tfmt env name)._current_log_level = s._current_log_level := by
  simp only [Logger.initialise]
  split
  · rfl
  · split <;> rfl

theorem initialise_logs (tfmt : Time → String) (env : InitEnv) (s : Logger) (name : String) :
    (s.initialise tfmt env name)._logs = s._logs := by
  simp only [Logger.initialise]
  split
  · rfl
  · split <;> rfl

/-- A call of `log` that returns or exits leaves the mask as it was. -/
theorem log_mask (tfmt : Time → String) (env : LogEnv) (s s1 : Logger) (level : LogType)
    (text : String)
    (h : s.log tfmt env level text = .returned s1 ∨ s.log tfmt env level text = .exited s1) :
    s1._current_log_level = s._current_log_level := by
  simp only [Logger.log] at h
  split at h
  · split at h
    · split at h
      · rcases h with h | h
        · injection h with h; subst h; rfl
        · cases h
      · rcases h with h | h <;> cases h
    · rcases h with h | h
      · injection h with h; subst h; rfl
      · cases h
  · rcases h with h | h
    · cases h
    · injection h with h; subst h; rfl

/-- A call of `writeLog` that returns or exits leaves the mask as it was. -/
theorem writeLog_mask (tfmt : Time → String) (env : FlushEnv) (w w1 : World)
    (h : Logger.writeLog tfmt env w = .returned w1 ∨ Logger.writeLog tfmt env w = .exited w1) :
    w1.logger._current_log_level = w.logger._current_log_level := by
  simp only [Logger.writeLog] at h
  split at h
  · rcases h with h | h <;> cases h
  · split at h
    · rcases h with h | h
      · injection h with h; subst h
        show (if w.logger._writer.isNone = true then _ else _ : Logger)._current_log_level = _
        split
        · exact initialise_mask _ _ _ _
        · rfl
      · cases h
    · rcases h with h | h <;> cases h

/-- One call keeps the ERROR bit of the mask. -/
theorem step_error_bit (tfmt : Time → String) (w w1 : World) (op : Op)
    (hw : w.logger._current_log_level.testBit 3 = true)
    (h : step tfmt w op = .returned w1 ∨ step tfmt w op = .exited w1) :
    w1.logger._current_log_level.testBit 3 = true := by
  cases op with
  | initialise env name =>
    rcases h with h | h
    · injection h with h; subst h
      show (w.logger.initialise tfmt env name)._current_log_level.testBit 3 = true
      rw [initialise_mask]; exact hw
    · cases h
  | setLogLevel level =>
    rcases h with h | h
    · injection h with h; subst h
      show (w.logger.setLogLevel level)._current_log_level.testBit 3 = true
      simp [setLogLevel_testBit]
    · cases h
  | appendLogLevel level =>
    rcases h with h | h
    · injection h with h; subst h
      show (w.logger.appendLogLevel level)._current_log_level.testBit 3 = true
      simp [appendLogLevel_testBit]
    · cases h
  | removeLogLevel level =>
    rcases h with h | h
    · injection h with h; subst h
      show (w.logger.removeLogLevel level)._current_log_level.testBit 3 = true
      simp [removeLogLevel_testBit]
    · cases h
  | log env level text =>
    simp only [step] at h
    cases hl : w.logger.log tfmt env level text with
    | returned s =>
      rw [hl] at h
      rcases h with h | h
      · injection h with h; subst h
        show s._current_log_level.testBit 3 = true
        rw [log_mask tfmt env w.logger s level text (Or.inl hl)]; exact hw
      · cases h
    | exited s =>
      rw [hl] at h
      rcases h with h | h
      · cases h
      · injection h with h; subst h
        show s._current_log_level.testBit 3 = true
        rw [log_mask tfmt env w.logger s level text (Or.inr hl)]; exact hw
    | undefined =>
      rw [hl] at h
      rcases h with h | h <;> cases h
  | writeLog env =>
    rw [writeLog_mask tfmt env w w1 h]; exact hw

/-- Every sequence of calls keeps the ERROR bit of the mask. -/
theorem run_error_bit (tfmt : Time → String) (ops : List Op) (w w1 : World)
    (hw : w.logger._current_log_level.testBit 3 = true)
    (h : run tfmt w ops = .returned w1 ∨ run tfmt w ops = .exited w1) :
    w1.logger._current_log_level.testBit 3 = true := by
  induction ops generalizing w with
  | nil =>
    rcases h with h | h
    · injection h with h; subst h; exact hw
    · cases h
  | cons op ops ih =>
    simp only [run] at h
    cases hs : step tfmt w op with
    | returned w2 =>
      rw [hs] at h
      exact ih w2 (step_error_bit tfmt w w2 op hw (Or.inl hs)) h
    | exited w2 =>
      rw [hs] at h
      rcases h with h | h
      · cases h
      · injection h with h; subst h
        exact step_error_bit tfmt w w2 op hw (Or.inr hs)
    | undefined =>
      rw [hs] at h
      rcases h with h | h <;> cases h

/-- A mask has the ERROR bit exactly when masking it with ERROR gives ERROR. -/
theorem and_ERROR_eq (x : Nat) (h : x.testBit 3 = true) : x &&& Log.ERROR = Log.ERROR := by
  apply Nat.eq_of_testBit_eq
  intro i
  show (x &&& 2 ^ 3).testBit i = (2 ^ 3).testBit i
  rw [Nat.testBit_and, Nat.testBit_two_pow]
  by_cases hi : 3 = i
  · subst hi; simp [h]
  · simp [hi]


/-- A level that meets a mask also meets every mask with at least the same bits. -/
theorem and_ne_zero_of_bits (l a b : Nat) (hab : ∀ i, a.testBit i = true → b.testBit i = true)
    (h : l &&& a ≠ 0) : l &&& b ≠ 0 := by
  obtain ⟨i, hi⟩ := Nat.ne_zero_implies_bit_true h
  rw [Nat.testBit_and, Bool.and_eq_true] at hi
  intro h0
  have := congrArg (fun y => Nat.testBit y i) h0
  simp [Nat.testBit_and, hi.1, hab i hi.2] at this

/-- C1: in every state reached from a freshly constructed logger by a sequence of calls
(`setLogLevel`, `appendLogLevel`, `removeLogLevel`, `log`, `writeLog`, also `initialize`,
with any arguments), whether the last call returned or ended the process, the ERROR bit (8)
is set in the active mask, so ERROR is enabled; and `setLogLevel X` followed by the test for
ERROR is true for every `X` on every state. -/
theorem error_bit_invariant (tfmt : Time → String) (fs : FileSystem) (ops : List Op)
    (w : World)
    (h : run tfmt (World.fresh fs) ops = .returned w
          ∨ run tfmt (World.fresh fs) ops = .exited w) :
    w.logger._current_log_level &&& Log.ERROR = Log.ERROR
      ∧ w.logger.isEnabled Log.ERROR = true
      ∧ ∀ (s : Logger) (X : LogType), (s.setLogLevel X).isEnabled Log.ERROR = true := by
  have hbit : w.logger._current_log_level.testBit 3 = true :=
    run_error_bit tfmt ops (World.fresh fs) w (by show Nat.testBit Log.ALL 3 = true; decide) h
  refine ⟨and_ERROR_eq _ hbit, ?_, ?_⟩
  · rw [isEnabled_ERROR]; exact hbit
  · intro s X
    rw [isEnabled_ERROR, setLogLevel_testBit]
    simp

/-- C1 at a concrete run: the mask is cleared, ERROR is removed, INFO is added and a DEBUG
message is logged; the mask ends as `INFO | ERROR`. -/
theorem error_bit_invariant_witness :
    (9 : Nat) &&& Log.ERROR = Log.ERROR
      ∧ Logger.isEnabled
          { _logs := [{ stamp := 5, level := 2, text := "x" }], _current_log_level := 9,
            _name := "", _writer := none, _os := "\x1b[49m\x1b[39m" } Log.ERROR = true
      ∧ ∀ (s : Logger) (X : LogType), (s.setLogLevel X).isEnabled Log.ERROR = true :=
  error_bit_invariant sampleFmt (fun _ => [])
    [.setLogLevel 0, .removeLogLevel 8, .appendLogLevel 1, .log ⟨5, true⟩ 2 "x"]
    { logger := { _logs := [{ stamp := 5, level := 2, text := "x" }], _current_log_level := 9,
                  _name := "", _writer := none, _os := "\x1b[49m\x1b[39m" },
      files := fun _ => [] }
    (Or.inl rfl)

/-- C7: for every prior state and every mask `m` (0 included), `setLogLevel m` makes the
active mask exactly `m | ERROR`, whatever the prior mask was; afterwards each of INFO, DEBUG
and WARN is enabled exactly when its bit is in `m`, and after `setLogLevel 0` the mask is
ERROR alone: of the four levels only ERROR is enabled. -/
theorem setLogLevel_mask (s : Logger) (m : LogType) :
    (s.setLogLevel m)._current_log_level = m ||| Log.ERROR
      ∧ (∀ s2 : Logger,
          (s2.setLogLevel m)._current_log_level = (s.setLogLevel m)._current_log_level)
      ∧ ((s.setLogLevel m).isEnabled Log.INFO = true ↔ Log.INFO &&& m ≠ 0)
      ∧ ((s.setLogLevel m).isEnabled Log.DEBUG = true ↔ Log.DEBUG &&& m ≠ 0)
      ∧ ((s.setLogLevel m).isEnabled Log.WARN = true ↔ Log.WARN &&& m ≠ 0)
      ∧ (s.setLogLevel m).isEnabled Log.ERROR = true
      ∧ (s.setLogLevel 0)._current_log_level = Log.ERROR
      ∧ (s.setLogLevel 0).isEnabled Log.INFO = false
      ∧ (s.setLogLevel 0).isEnabled Log.DEBUG = false
      ∧ (s.setLogLevel 0).isEnabled Log.WARN = false
      ∧ (s.setLogLevel 0).isEnabled Log.ERROR = true := by
  have h0 : (s.setLogLevel 0)._current_log_level = Log.ERROR := by
    show (0 ||| 8 : Nat) = 8
    decide
  refine ⟨rfl, fun _ => rfl, ?_, ?_, ?_, ?_, h0, ?_, ?_, ?_, ?_⟩
  · rw [isEnabled_INFO, setLogLevel_testBit]
    simp
  · rw [isEnabled_DEBUG, setLogLevel_testBit]
    simpa using (two_pow_and_ne_zero 1 m).symm
  · rw [isEnabled_WARN, setLogLevel_testBit]
    simpa using (two_pow_and_ne_zero 2 m).symm
  · rw [isEnabled_ERROR, setLogLevel_testBit]
    simp
  · rw [isEnabled_INFO, h0]; decide
  · rw [isEnabled_DEBUG, h0]; decide
  · rw [isEnabled_WARN, h0]; decide
  · rw [isEnabled_ERROR, h0]; decide

/-- C8: for every prior 32-bit mask `c` and every 32-bit mask `m`, `removeLogLevel m` makes
the active mask exactly `(c AND NOT m) | ERROR`, bit by bit; each of INFO, DEBUG, WARN whose
bit is in `m` is disabled afterwards; every bit not in `m` keeps its prior value (the ERROR
bit on a state where ERROR is enabled, which is every reachable state; every other bit on
every state); and after `removeLogLevel ERROR` ERROR is enabled, the whole state being
unchanged where ERROR was enabled before. -/
theorem removeLogLevel_mask (s : Logger) (m : LogType) (hc : s._current_log_level < 2 ^ 32)
    (hm : m < 2 ^ 32) :
    (s.removeLogLevel m)._current_log_level
        = (s._current_log_level &&& LogType.complement m) ||| Log.ERROR
      ∧ (∀ i, (LogType.complement m).testBit i = (decide (i < 32) && !m.testBit i))
      ∧ (∀ i, (s.removeLogLevel m)._current_log_level.testBit i
              = ((s._current_log_level.testBit i && !m.testBit i) || decide (i = 3)))
      ∧ (Log.INFO &&& m ≠ 0 → (s.removeLogLevel m).isEnabled Log.INFO = false)
      ∧ (Log.DEBUG &&& m ≠ 0 → (s.removeLogLevel m).isEnabled Log.DEBUG = false)
      ∧ (Log.WARN &&& m ≠ 0 → (s.removeLogLevel m).isEnabled Log.WARN = false)
      ∧ (∀ i, i ≠ 3 → m.testBit i = false →
            (s.removeLogLevel m)._current_log_level.testBit i
              = s._current_log_level.testBit i)
      ∧ (s.isEnabled Log.ERROR = true → ∀ i, m.testBit i = false →
            (s.removeLogLevel m)._current_log_level.testBit i
              = s._current_log_level.testBit i)
      ∧ (s.removeLogLevel Log.ERROR).isEnabled Log.ERROR = true
      ∧ (s.isEnabled Log.ERROR = true → s.removeLogLevel Log.ERROR = s) := by
  have hbits : ∀ i, (s.removeLogLevel m)._current_log_level.testBit i
      = ((s._current_log_level.testBit i && !m.testBit i) || decide (i = 3)) := by
    intro i
    rw [removeLogLevel_testBit]
    by_cases hi : i < 32
    · simp [hi]
    · have h1 := testBit_eq_false_of_lt _ i hc (not_lt.1 hi)
      simp [h1]
  refine ⟨rfl, ?_, hbits, ?_, ?_, ?_, ?_, ?_, ?_, ?_⟩
  · intro i
    rw [complement_testBit]
    by_cases hi : i < 32
    · simp [hi]
    · simp [hi, testBit_eq_false_of_lt _ i hm (not_lt.1 hi)]
  · intro h
    rw [isEnabled_INFO, hbits]
    simp [(two_pow_and_ne_zero 0 m).1 h]
  · intro h
    rw [isEnabled_DEBUG, hbits]
    simp [(two_pow_and_ne_zero 1 m).1 h]
  · intro h
    rw [isEnabled_WARN, hbits]
    simp [(two_pow_and_ne_zero 2 m).1 h]
  · intro i hi hmi
    rw [hbits]
    simp [hi, hmi]
  · intro hE i hmi
    rw [isEnabled_ERROR] at hE
    rw [hbits]
    by_cases hi : i = 3
    · subst hi; simp [hE]
    · simp [hi, hmi]
  · rw [isEnabled_ERROR, removeLogLevel_testBit]
    simp
  · intro hE
    rw [isEnabled_ERROR] at hE
    have hmask : (s.removeLogLevel Log.ERROR)._current_log_level = s._current_log_level := by
      apply Nat.eq_of_testBit_eq
      intro i
      rw [removeLogLevel_testBit]
      by_cases hi : i = 3
      · subst hi; simp [hE]
      · have h8 : Nat.testBit Log.ERROR i = false := by
          show (2 ^ 3).testBit i = false
          rw [Nat.testBit_two_pow]
          have h3 : ¬ 3 = i := fun e => hi e.symm
          simp [h3]
        by_cases h32 : i < 32
        · simp [hi, h8, h32]
        · simp [hi, testBit_eq_false_of_lt _ i hc (not_lt.1 h32)]
    cases s with
    | mk logs mask name writer os =>
      simp only [Logger.removeLogLevel, Logger.forceOutput] at hmask ⊢
      rw [hmask]

/-- C8 at a concrete state: on a fresh logger (mask `ALL`), removing `INFO | DEBUG` leaves
`0xFFFFFFFC`, and removing ERROR changes nothing. -/
theorem removeLogLevel_mask_witness :
    (Logger.new.removeLogLevel 3)._current_log_level = 0xFFFFFFFC
      ∧ (Logger.new.removeLogLevel 3).isEnabled Log.INFO = false
      ∧ (Logger.new.removeLogLevel 3).isEnabled Log.DEBUG = false
      ∧ (Logger.new.removeLogLevel 3)._current_log_level.testBit 2 = true
      ∧ Logger.new.removeLogLevel Log.ERROR = Logger.new := by
  have h := removeLogLevel_mask Logger.new 3 (by decide) (by decide)
  refine ⟨by decide, h.2.2.2.1 (by decide), h.2.2.2.2.1 (by decide), ?_,
    h.2.2.2.2.2.2.2.2.2 (by decide)⟩
  rw [h.2.2.2.2.2.2.1 2 (by decide) (by decide)]
  decide

/-- C9: for every prior mask `c` and every mask `m`, `appendLogLevel m` makes the active
mask exactly `c | m | ERROR`: every level that meets `m` is enabled afterwards, every level
enabled before is still enabled, and no bit of the mask is cleared. -/
theorem appendLogLevel_mask (s : Logger) (m : LogType) :
    (s.appendLogLevel m)._current_log_level = s._current_log_level ||| m ||| Log.ERROR
      ∧ (∀ l : LogType, l &&& m ≠ 0 → (s.appendLogLevel m).isEnabled l = true)
      ∧ (∀ l : LogType, s.isEnabled l = true → (s.appendLogLevel m).isEnabled l = true)
      ∧ (∀ i, s._current_log_level.testBit i = true →
            (s.appendLogLevel m)._current_log_level.testBit i = true)
      ∧ (s.appendLogLevel m).isEnabled Log.ERROR = true := by
  refine ⟨rfl, ?_, ?_, ?_, ?_⟩
  · intro l h
    have := and_ne_zero_of_bits l m (s.appendLogLevel m)._current_log_level
      (fun i hi => by rw [appendLogLevel_testBit]; simp [hi]) h
    simpa [Logger.isEnabled] using this
  · intro l h
    have h1 : l &&& s._current_log_level ≠ 0 := by simpa [Logger.isEnabled] using h
    have := and_ne_zero_of_bits l s._current_log_level (s.appendLogLevel m)._current_log_level
      (fun i hi => by rw [appendLogLevel_testBit]; simp [hi]) h1
    simpa [Logger.isEnabled] using this
  · intro i hi
    rw [appendLogLevel_testBit]; simp [hi]
  · rw [isEnabled_ERROR, appendLogLevel_testBit]
    simp


/-! ## The formatter and `log` -/

/-- The four named levels. -/
theorem named_cases (level : LogType)
    (h : level ∈ [Log.INFO, Log.DEBUG, Log.WARN, Log.ERROR]) :
    level = Log.INFO ∨ level = Log.DEBUG ∨ level = Log.WARN ∨ level = Log.ERROR := by
  simpa using h

/-- The formatter is defined on every record of a named level. -/
theorem parse_isSome_of_named (tfmt : Time → String) (obj : LogObj)
    (h : obj.level ∈ [Log.INFO, Log.DEBUG, Log.WARN, Log.ERROR]) :
    ∃ str, LogObj.parse tfmt obj = some str := by
  rcases named_cases _ h with h | h | h | h <;>
    exact ⟨_, by simp only [LogObj.parse, h]; rfl⟩

/-- What `log` returns when `push_back` succeeds and the level is active. -/
theorem log_enabled (tfmt : Time → String) (now : Time) (s : Logger) (level : LogType)
    (text str : String) (he : s.isEnabled level = true)
    (hp : LogObj.parse tfmt { stamp := now, level := level, text := text } = some str) :
    s.log tfmt { now := now, pushOk := true } level text
      = .returned { s with
          _logs := s._logs ++ [{ stamp := now, level := level, text := text }]
          _os := OSColor.put (OSColor.put (s._os ++ str) Logger._color_def_b)
                   Logger._color_def_f ++ "\n" } := by
  have he1 : Logger.isEnabled
      { s with _logs := s._logs ++ [{ stamp := now, level := level, text := text }] } level
        = true := he
  simp only [Logger.log, if_true, he1, hp]

/-- What `log` returns when `push_back` succeeds and the level is not active. -/
theorem log_disabled (tfmt : Time → String) (now : Time) (s : Logger) (level : LogType)
    (text : String) (he : s.isEnabled level = false) :
    s.log tfmt { now := now, pushOk := true } level text
      = .returned { s with
          _logs := s._logs ++ [{ stamp := now, level := level, text := text }]
          _os := OSColor.put (OSColor.put s._os Logger._color_def_b) Logger._color_def_f } := by
  have he1 : Logger.isEnabled
      { s with _logs := s._logs ++ [{ stamp := now, level := level, text := text }] } level
        = false := he
  simp [Logger.log, he1]

/-- The two default-colour directives, as characters. -/
theorem put_default_colours (os : String) :
    OSColor.put (OSColor.put os Logger._color_def_b) Logger._color_def_f
      = os ++ "\x1b[49m" ++ "\x1b[39m" := by
  simp only [OSColor.put, Logger._color_def_b, Logger._color_def_f, String.append_assoc]
  congr 1


/-- With `push_back` succeeding and a named level, `log` returns, and the new state has
one more record and the same mask, name and writer. -/
theorem log_returns (tfmt : Time → String) (now : Time) (s : Logger)
    (level : LogType) (text : String)
    (h : level ∈ [Log.INFO, Log.DEBUG, Log.WARN, Log.ERROR]) :
    (∃ s1, s.log tfmt { now := now, pushOk := true } level text = .returned s1
        ∧ s1._logs = s._logs ++ [{ stamp := now, level := level, text := text }]
        ∧ s1._current_log_level = s._current_log_level
        ∧ s1._name = s._name ∧ s1._writer = s._writer) := by
  cases he : s.isEnabled level with
  | true =>
    obtain ⟨str, hp⟩ := parse_isSome_of_named tfmt
      { stamp := now, level := level, text := text } h
    exact ⟨_, log_enabled tfmt now s level text str he hp, rfl, rfl, rfl, rfl⟩
  | false =>
    exact ⟨_, log_disabled tfmt now s level text he, rfl, rfl, rfl, rfl⟩

/-- C2: for every state, every level among INFO, DEBUG, WARN, ERROR and every text,
`log(level, text)` (with `push_back` succeeding) returns and leaves `_logs` equal to the
previous `_logs` followed by exactly one new record with that level and that text, whatever
the active mask is, the mask, name and writer being untouched; in particular after
`setLogLevel(INFO)`, `log(DEBUG, "x")` appends the record although nothing but the default
colours reaches the stream. -/
theorem log_appends_record (tfmt : Time → String) (now : Time) (s : Logger) (level : LogType)
    (text : String) (h : level ∈ [Log.INFO, Log.DEBUG, Log.WARN, Log.ERROR]) :
    (∃ s1, s.log tfmt { now := now, pushOk := true } level text = .returned s1
        ∧ s1._logs = s._logs ++ [{ stamp := now, level := level, text := text }]
        ∧ s1._current_log_level = s._current_log_level
        ∧ s1._name = s._name ∧ s1._writer = s._writer)
      ∧ (∃ s2, (s.setLogLevel Log.INFO).log tfmt { now := now, pushOk := true } Log.DEBUG "x"
              = .returned s2
          ∧ s2._logs = s._logs ++ [{ stamp := now, level := Log.DEBUG, text := "x" }]
          ∧ s2._os = s._os ++ "\x1b[49m" ++ "\x1b[39m") := by
  refine ⟨log_returns tfmt now s level text h, ?_⟩
  · have he : (s.setLogLevel Log.INFO).isEnabled Log.DEBUG = false := by
      rw [isEnabled_DEBUG, setLogLevel_testBit]; decide
    refine ⟨_, log_disabled tfmt now (s.setLogLevel Log.INFO) Log.DEBUG "x" he, rfl, ?_⟩
    exact put_default_colours s._os

/-- C2 at a concrete state: a WARN message logged while only ERROR is active. -/
theorem log_appends_record_witness :
    ∃ s1, (Logger.new.setLogLevel 0).log sampleFmt { now := 7, pushOk := true } Log.WARN "w"
        = .returned s1
      ∧ s1._logs = [{ stamp := 7, level := Log.WARN, text := "w" }] := by
  obtain ⟨s1, h1, h2, _⟩ :=
    (log_appends_record sampleFmt 7 (Logger.new.setLogLevel 0) Log.WARN "w" (by decide)).1
  exact ⟨s1, h1, h2⟩

/-- After `initialize` a writer is bound. -/
theorem initialise_binds (tfmt : Time → String) (env : InitEnv) (s : Logger)
    (name : String) : ∃ wr, (s.initialise tfmt env name)._writer = some wr := by
  simp only [Logger.initialise]
  split
  · next wr hs => exact ⟨wr, hs⟩
  · exact ⟨_, rfl⟩

/-- C5: `initialize` is idempotent. For all names `a` and `b` and whatever the two calls
meet, after `initialize(a)` a writer is bound, and `initialize(b)` on that state changes
nothing: name, bound path, pending logs, mask and stream are as the first call left them. -/
theorem initialise_idempotent (tfmt : Time → String) (env1 env2 : InitEnv) (s : Logger)
    (a b : String) :
    (∃ wr, (s.initialise tfmt env1 a)._writer = some wr)
      ∧ (s.initialise tfmt env1 a).initialise tfmt env2 b = s.initialise tfmt env1 a := by
  have hw := initialise_binds tfmt env1 s a
  refine ⟨hw, ?_⟩
  obtain ⟨wr, hwr⟩ := hw
  generalize s.initialise tfmt env1 a = t at hwr
  simp only [Logger.initialise, hwr]

/-- C6: for a record of level INFO, DEBUG, WARN or ERROR the formatter returns exactly
`"[" + timestamp + "]-[" + label + "]  " + text`, the label being `"INFO "`, `"DEBUG"`,
`"WARN "` or `"ERROR"` (five characters each); a WARN record with text `"disk low"` and
time string `"<ts>"` renders as `"[<ts>]-[WARN ]  disk low"`. -/
theorem parse_named_levels (tfmt : Time → String) (stamp : Time) (text : String) :
    LogObj.parse tfmt { stamp := stamp, level := Log.INFO, text := text }
        = some ("[" ++ tfmt stamp ++ "]-[" ++ "INFO " ++ "]  " ++ text)
      ∧ LogObj.parse tfmt { stamp := stamp, level := Log.DEBUG, text := text }
        = some ("[" ++ tfmt stamp ++ "]-[" ++ "DEBUG" ++ "]  " ++ text)
      ∧ LogObj.parse tfmt { stamp := stamp, level := Log.WARN, text := text }
        = some ("[" ++ tfmt stamp ++ "]-[" ++ "WARN " ++ "]  " ++ text)
      ∧ LogObj.parse tfmt { stamp := stamp, level := Log.ERROR, text := text }
        = some ("[" ++ tfmt stamp ++ "]-[" ++ "ERROR" ++ "]  " ++ text)
      ∧ ["INFO ", "DEBUG", "WARN ", "ERROR"].map String.length = [5, 5, 5, 5]
      ∧ LogObj.parse (fun _ => "<ts>") { stamp := stamp, level := Log.WARN, text := "disk low" }
        = some "[<ts>]-[WARN ]  disk low" := by
  refine ⟨rfl, rfl, rfl, rfl, by decide, ?_⟩
  show some ("[" ++ "<ts>" ++ "]-[" ++ "WARN " ++ "]  " ++ "disk low") = _
  decide

/-- C10: for every state, every level among INFO, DEBUG, WARN, ERROR and every text,
`log(level, text)` (with `push_back` succeeding) returns; the level is active exactly when
`level & mask` is not zero; when it is active the stream receives the formatter's rendering
of the record just appended, the default-colour directives `"\33[49m"`, `"\33[39m"` and
the line terminator (in this order), and when it is not active the stream receives the two
default-colour directives and nothing else: no record text and no line terminator. -/
theorem log_echo (tfmt : Time → String) (now : Time) (s : Logger) (level : LogType)
    (text : String) (h : level ∈ [Log.INFO, Log.DEBUG, Log.WARN, Log.ERROR]) :
    (s.isEnabled level = true ↔ level &&& s._current_log_level ≠ 0)
      ∧ ∃ str s1, LogObj.parse tfmt { stamp := now, level := level, text := text } = some str
          ∧ s.log tfmt { now := now, pushOk := true } level text = .returned s1
          ∧ s1._logs = s._logs ++ [{ stamp := now, level := level, text := text }]
          ∧ (level &&& s._current_log_level ≠ 0 →
                s1._os = s._os ++ str ++ "\x1b[49m" ++ "\x1b[39m" ++ "\n")
          ∧ (¬ level &&& s._current_log_level ≠ 0 →
                s1._os = s._os ++ "\x1b[49m" ++ "\x1b[39m") := by
  have hiff : s.isEnabled level = true ↔ level &&& s._current_log_level ≠ 0 := by
    simp [Logger.isEnabled]
  refine ⟨hiff, ?_⟩
  obtain ⟨str, hp⟩ := parse_isSome_of_named tfmt
    { stamp := now, level := level, text := text } h
  cases he : s.isEnabled level with
  | true =>
    refine ⟨str, _, hp, log_enabled tfmt now s level text str he hp, rfl, ?_, ?_⟩
    · intro _
      show OSColor.put (OSColor.put (s._os ++ str) _) _ ++ "\n" = _
      rw [put_default_colours]
    · intro hn
      exact absurd (hiff.1 he) hn
  | false =>
    refine ⟨str, _, hp, log_disabled tfmt now s level text he, rfl, ?_, ?_⟩
    · intro hn
      rw [hiff.2 hn] at he
      cases he
    · intro _
      exact put_default_colours s._os

/-- C10 at two concrete calls on a logger whose mask is `INFO | ERROR`: an INFO message is
echoed, a DEBUG message leaves only the colour directives. -/
theorem log_echo_witness :
    (∃ s1, (Logger.new.setLogLevel 1).log sampleFmt { now := 3, pushOk := true } Log.INFO "hi"
          = .returned s1
        ∧ s1._os = "[3]-[INFO ]  hi\x1b[49m\x1b[39m\n")
      ∧ (∃ s1, (Logger.new.setLogLevel 1).log sampleFmt { now := 3, pushOk := true }
            Log.DEBUG "hi" = .returned s1
        ∧ s1._os = "\x1b[49m\x1b[39m") := by
  obtain ⟨_, str, s1, hp, hl, _, hon, _⟩ :=
    log_echo sampleFmt 3 (Logger.new.setLogLevel 1) Log.INFO "hi" (by decide)
  obtain ⟨_, _, s2, _, hl2, _, _, hoff⟩ :=
    log_echo sampleFmt 3 (Logger.new.setLogLevel 1) Log.DEBUG "hi" (by decide)
  refine ⟨⟨s1, hl, ?_⟩, ⟨s2, hl2, ?_⟩⟩
  · rw [hon (by decide)]
    have : str = "[3]-[INFO ]  hi" := by
      have h3 : LogObj.parse sampleFmt { stamp := 3, level := Log.INFO, text := "hi" }
          = some "[3]-[INFO ]  hi" := by decide
      rw [h3] at hp
      exact (Option.some.inj hp).symm
    rw [this]
    decide
  · rw [hoff (by decide)]
    decide


/-! ## The flush -/

/-- Parsing a whole vector succeeds with `lines` exactly when `lines` are the renderings
of its elements, one each and in order. -/
theorem renderAll_eq_some (tfmt : Time → String) (l : List LogObj) (lines : List String) :
    Writer.renderAll tfmt l = some lines
      ↔ l.map (LogObj.parse tfmt) = lines.map some := by
  induction l generalizing lines with
  | nil =>
    cases lines <;> simp [Writer.renderAll]
  | cons e es ih =>
    simp only [Writer.renderAll]
    cases hp : LogObj.parse tfmt e with
    | none =>
      cases lines <;> simp [hp]
    | some str =>
      cases hm : Writer.renderAll tfmt es with
      | none =>
        cases lines with
        | nil => simp
        | cons x xs =>
          have := (ih xs).not.1 (by rw [hm]; simp)
          simp [hp, this]
      | some rest =>
        have h1 := (ih rest).1 hm
        cases lines with
        | nil => simp
        | cons x xs =>
          simp only [hp, List.map_cons, Option.some.injEq, List.cons.injEq]
          constructor
          · rintro ⟨rfl, rfl⟩
            exact ⟨rfl, h1⟩
          · rintro ⟨hx, hxs⟩
            refine ⟨hx, ?_⟩
            have := (ih xs).2 hxs
            rw [hm] at this
            exact Option.some.inj this

/-- A vector of records of named levels can be rendered. -/
theorem map_parse_of_named (tfmt : Time → String) (l : List LogObj)
    (h : ∀ e ∈ l, e.level ∈ [Log.INFO, Log.DEBUG, Log.WARN, Log.ERROR]) :
    ∃ lines : List String, l.map (LogObj.parse tfmt) = lines.map some := by
  induction l with
  | nil => exact ⟨[], rfl⟩
  | cons e es ih =>
    obtain ⟨rest, hr⟩ := ih (fun x hx => h x (List.mem_cons_of_mem _ hx))
    obtain ⟨str, hs⟩ := parse_isSome_of_named tfmt e (h e (List.mem_cons_self _ _))
    exact ⟨str :: rest, by simp [hs, hr]⟩

/-- A failed open: `Writer::write` changes neither the files nor the vector. -/
theorem write_open_failed (tfmt : Time → String) (wr : Writer) (env : StreamEnv)
    (fs : FileSystem) (obj : List LogObj) (h : env.openOk = false) :
    wr.write tfmt env fs obj = some (fs, obj) := by
  simp [Writer.write, h]

/-- A successful open and a stream that takes every line: `Writer::write` appends the
renderings and clears the vector. -/
theorem write_ok (tfmt : Time → String) (wr : Writer) (env : StreamEnv) (fs : FileSystem)
    (obj : List LogObj) (lines : List String) (h : env.openOk = true)
    (ha : env.accepted = none) (hl : obj.map (LogObj.parse tfmt) = lines.map some) :
    wr.write tfmt env fs obj = some (fs.append wr._file lines, []) := by
  have hm := (renderAll_eq_some tfmt obj lines).2 hl
  simp [Writer.write, h, ha, hm]

/-- The logger that `writeLog` hands to the writer: bound, with the same pending logs and
mask, and the very same logger if it was bound before. -/
theorem flush_target (tfmt : Time → String) (env : InitEnv) (s : Logger) :
    ∃ wr, (if s._writer.isNone then s.initialise tfmt env "EVO" else s)._writer = some wr
      ∧ (if s._writer.isNone then s.initialise tfmt env "EVO" else s)._logs = s._logs
      ∧ (∀ wr0, s._writer = some wr0 →
          (if s._writer.isNone then s.initialise tfmt env "EVO" else s) = s) := by
  cases hs : s._writer with
  | none =>
    obtain ⟨wr, hwr⟩ := (initialise_binds tfmt env s "EVO")
    refine ⟨wr, ?_, ?_, ?_⟩
    · simpa using hwr
    · simpa using initialise_logs tfmt env s "EVO"
    · intro wr0 h0; cases h0
  | some wr =>
    exact ⟨wr, by simp [hs], by simp, fun _ _ => by simp⟩

/-- What `writeLog` returns, given what `Writer::write` returns on the bound logger. -/
theorem writeLog_eq (tfmt : Time → String) (env : FlushEnv) (w : World) (s : Logger)
    (wr : Writer) (fs : FileSystem) (logs : List LogObj)
    (hs : s = (if w.logger._writer.isNone then w.logger.initialise tfmt env.init "EVO"
                else w.logger))
    (hwr : s._writer = some wr)
    (hw : wr.write tfmt env.stream w.files s._logs = some (fs, logs)) :
    Logger.writeLog tfmt env w
      = .returned { logger := { s with _logs := logs }, files := fs } := by
  subst hs
  simp only [Logger.writeLog]
  split
  · next h => rw [hwr] at h; cases h
  · next wr1 h =>
    rw [hwr] at h
    cases h
    rw [hw]


/-- Appending nothing leaves the files as they are. -/
theorem append_nil (fs : FileSystem) (path : String) : fs.append path [] = fs := by
  funext p
  simp [FileSystem.append]

/-- Two appends to one file are one append of both batches. -/
theorem append_append (fs : FileSystem) (path : String) (l1 l2 : List String) :
    (fs.append path l1).append path l2 = fs.append path (l1 ++ l2) := by
  funext p
  by_cases hp : p = path <;> simp [FileSystem.append, hp]

/-- C4 as amended: for every non-empty pending sequence (of records of the named levels), a
flush whose file cannot be opened returns with the pending sequence unchanged, hence
non-empty, and with every file unchanged, at the level of `Writer::write` and of `writeLog`;
a flush right after it whose open succeeds and whose stream takes every line appends the
renderings of exactly those records, in their order, to the bound file and clears the
sequence. -/
theorem flush_open_failure (tfmt : Time → String) (w : World) (env1 env2 : FlushEnv)
    (hne : w.logger._logs ≠ [])
    (hlv : ∀ e ∈ w.logger._logs, e.level ∈ [Log.INFO, Log.DEBUG, Log.WARN, Log.ERROR])
    (h1 : env1.stream.openOk = false)
    (h2 : env2.stream.openOk = true) (h2a : env2.stream.accepted = none) :
    (∀ (wr : Writer) (fs : FileSystem) (obj : List LogObj),
        wr.write tfmt env1.stream fs obj = some (fs, obj))
      ∧ ∃ (w1 w2 : World) (wr : Writer) (lines : List String),
          Logger.writeLog tfmt env1 w = .returned w1
          ∧ w1.logger._logs = w.logger._logs ∧ w1.logger._logs ≠ []
          ∧ w1.files = w.files
          ∧ w1.logger._writer = some wr
          ∧ w.logger._logs.map (LogObj.parse tfmt) = lines.map some
          ∧ Logger.writeLog tfmt env2 w1 = .returned w2
          ∧ w2.files = w.files.append wr._file lines
          ∧ w2.logger._logs = []
          ∧ w2.logger._writer = some wr := by
  refine ⟨fun wr fs obj => write_open_failed tfmt wr env1.stream fs obj h1, ?_⟩
  obtain ⟨wr, hwr, hlogs, _⟩ := flush_target tfmt env1.init w.logger
  obtain ⟨lines, hlines⟩ := map_parse_of_named tfmt w.logger._logs hlv
  have hrun1 := writeLog_eq tfmt env1 w _ wr w.files _ rfl hwr
    (write_open_failed tfmt wr env1.stream w.files _ h1)
  rw [hlogs] at hrun1
  generalize hs : (if w.logger._writer.isNone then w.logger.initialise tfmt env1.init "EVO"
    else w.logger) = s at hwr hlogs hrun1
  have hs1 : ({ s with _logs := w.logger._logs } : Logger) = s := by
    cases s; simp only at hlogs; subst hlogs; rfl
  rw [hs1] at hrun1
  have htarget : (if (World.mk s w.files).logger._writer.isNone
      then (World.mk s w.files).logger.initialise tfmt env2.init "EVO"
      else (World.mk s w.files).logger) = s := by
    simp [hwr]
  have hrun2 := writeLog_eq tfmt env2 (World.mk s w.files) s wr
    (w.files.append wr._file lines) [] htarget.symm hwr
    (write_ok tfmt wr env2.stream w.files s._logs lines h2 h2a (by rw [hlogs]; exact hlines))
  exact ⟨_, _, wr, lines, hrun1, hlogs, by rw [hlogs]; exact hne, rfl, hwr, hlines, hrun2,
    rfl, rfl, hwr⟩

/-- C4 as amended, at a concrete state: one pending INFO record, no writer bound yet. -/
theorem flush_open_failure_witness :
    ∃ (w1 w2 : World) (wr : Writer),
      Logger.writeLog sampleFmt
          { init := ⟨"/home/u", true, true, true, 9⟩, stream := ⟨false, none⟩ }
          { logger := { Logger.new with _logs := [{ stamp := 1, level := Log.INFO, text := "a" }] },
            files := fun _ => [] } = .returned w1
      ∧ w1.logger._logs = [{ stamp := 1, level := Log.INFO, text := "a" }]
      ∧ w1.files = (fun _ => [])
      ∧ Logger.writeLog sampleFmt
          { init := ⟨"/home/u", true, true, true, 12⟩, stream := ⟨true, none⟩ } w1
          = .returned w2
      ∧ w2.files = FileSystem.append (fun _ => []) wr._file ["[1]-[INFO ]  a"]
      ∧ w2.logger._logs = [] := by
  obtain ⟨_, w1, w2, wr, lines, h1, h2, _, h4, _, h6, h7, h8, h9, _⟩ :=
    flush_open_failure sampleFmt
      { logger := { Logger.new with _logs := [{ stamp := 1, level := Log.INFO, text := "a" }] },
        files := fun _ => [] }
      { init := ⟨"/home/u", true, true, true, 9⟩, stream := ⟨false, none⟩ }
      { init := ⟨"/home/u", true, true, true, 12⟩, stream := ⟨true, none⟩ }
      (by decide) (by decide) rfl rfl rfl
  have hl : lines.map some = ["[1]-[INFO ]  a"].map some := h6.symm.trans (by decide)
  have hl2 : lines = ["[1]-[INFO ]  a"] :=
    List.map_injective_iff.2 (Option.some_injective _) hl
  rw [hl2] at h8
  exact ⟨w1, w2, wr, h1, h2, h4, h7, h8, h9⟩


/-! ## Logging interleaved with flushing -/

/-- A fresh logger has logged and written nothing. -/
theorem flushInv_fresh (tfmt : Time → String) (fs : FileSystem) :
    FlushInv tfmt fs [] (World.fresh fs) := by
  refine ⟨[], [], rfl, rfl, ?_, ?_, ?_⟩
  · intro e he
    cases he
  · intro _
    exact ⟨rfl, rfl⟩
  · intro wr h
    cases h

/-- A change of the logger that touches neither logs nor writer keeps the invariant. -/
theorem flushInv_of_same (tfmt : Time → String) (fs : FileSystem) (pre : List LogObj)
    (w : World) (s : Logger) (hl : s._logs = w.logger._logs)
    (hw : s._writer = w.logger._writer) (h : FlushInv tfmt fs pre w) :
    FlushInv tfmt fs pre { w with logger := s } := by
  obtain ⟨done, lines, h1, h2, h3, h4, h5⟩ := h
  refine ⟨done, lines, ?_, h2, h3, ?_, ?_⟩
  · show done ++ s._logs = pre
    rw [hl]; exact h1
  · intro hn
    exact h4 (hw ▸ hn)
  · intro wr hwr
    exact h5 wr (hw ▸ hwr)

/-- The invariant across `initialize`. -/
theorem flushInv_initialise (tfmt : Time → String) (fs : FileSystem) (pre : List LogObj)
    (w : World) (env : InitEnv) (name : String) (h : FlushInv tfmt fs pre w) :
    FlushInv tfmt fs pre { w with logger := w.logger.initialise tfmt env name } := by
  cases hwr : w.logger._writer with
  | some wr0 =>
    have : w.logger.initialise tfmt env name = w.logger := by
      simp only [Logger.initialise, hwr]
    rw [this]
    exact h
  | none =>
    obtain ⟨done, lines, h1, h2, h3, h4, _⟩ := h
    obtain ⟨hd, hf⟩ := h4 hwr
    subst hd
    have hl : lines = [] := by
      cases lines with
      | nil => rfl
      | cons x xs => simp at h2
    subst hl
    refine ⟨[], [], ?_, rfl, h3, ?_, ?_⟩
    · show [] ++ (w.logger.initialise tfmt env name)._logs = pre
      rw [initialise_logs]; exact h1
    · intro hn
      obtain ⟨wr, hb⟩ := initialise_binds tfmt env w.logger name
      have hn1 : (w.logger.initialise tfmt env name)._writer = none := hn
      rw [hb] at hn1
      cases hn1
    · intro wr _
      show w.files = fs.append wr._file []
      rw [append_nil]; exact hf

/-- The invariant across one call that meets no failure: the call returns, and the record
of a `log` call joins the logged ones. -/
theorem flushInv_step (tfmt : Time → String) (fs : FileSystem) (pre : List LogObj)
    (w : World) (op : Op) (hop : op.nominal = true) (h : FlushInv tfmt fs pre w) :
    ∃ w1, step tfmt w op = .returned w1 ∧ FlushInv tfmt fs (pre ++ logged [op]) w1 := by
  cases op with
  | initialise env name =>
    exact ⟨_, rfl, by simpa [logged] using flushInv_initialise tfmt fs pre w env name h⟩
  | setLogLevel level =>
    exact ⟨_, rfl, by simpa [logged] using flushInv_of_same tfmt fs pre w _ rfl rfl h⟩
  | appendLogLevel level =>
    exact ⟨_, rfl, by simpa [logged] using flushInv_of_same tfmt fs pre w _ rfl rfl h⟩
  | removeLogLevel level =>
    exact ⟨_, rfl, by simpa [logged] using flushInv_of_same tfmt fs pre w _ rfl rfl h⟩
  | log env level text =>
    obtain ⟨now, pushOk⟩ := env
    simp only [Op.nominal, Bool.and_eq_true, decide_eq_true_eq] at hop
    obtain ⟨hpush, hnamed⟩ := hop
    subst hpush
    obtain ⟨s1, hrun, hlogs, _, _, hwr⟩ :=
      log_returns tfmt now w.logger level text hnamed
    refine ⟨{ w with logger := s1 }, by simp only [step, hrun], ?_⟩
    obtain ⟨done, lines, h1, h2, h3, h4, h5⟩ := h
    refine ⟨done, lines, ?_, h2, ?_, ?_, ?_⟩
    · show done ++ s1._logs = pre ++ logged [Op.log ⟨now, true⟩ level text]
      rw [hlogs, ← List.append_assoc, h1]
      rfl
    · intro e he
      simp only [logged, List.mem_append, List.mem_singleton] at he
      rcases he with he | he
      · exact h3 e he
      · subst he; exact hnamed
    · intro hn
      exact h4 (hwr ▸ hn)
    · intro wr hw
      exact h5 wr (hwr ▸ hw)
  | writeLog env =>
    simp only [Op.nominal, Bool.and_eq_true, Option.isNone_iff_eq_none] at hop
    obtain ⟨hopen, hacc⟩ := hop
    obtain ⟨done, lines, h1, h2, h3, h4, h5⟩ := h
    obtain ⟨wr, hwr, hlogs, hsame⟩ := flush_target tfmt env.init w.logger
    obtain ⟨lines2, hl2⟩ := map_parse_of_named tfmt w.logger._logs
      (fun e he => h3 e (h1 ▸ List.mem_append_right _ he))
    have hrun := writeLog_eq tfmt env w _ wr (w.files.append wr._file lines2) [] rfl hwr
      (write_ok tfmt wr env.stream w.files _ lines2 hopen hacc (by rw [hlogs]; exact hl2))
    refine ⟨_, hrun, pre, lines ++ lines2, ?_, ?_, ?_, ?_, ?_⟩
    · simp [logged]
    · rw [← h1, List.map_append, List.map_append, h2, hl2]
    · intro e he
      simp only [logged, List.append_nil] at he
      exact h3 e he
    · intro hn
      have hn1 : (if w.logger._writer.isNone then w.logger.initialise tfmt env.init "EVO"
        else w.logger)._writer = none := hn
      rw [hwr] at hn1
      cases hn1
    · intro wr1 hw1
      have hw2 : (if w.logger._writer.isNone then w.logger.initialise tfmt env.init "EVO"
        else w.logger)._writer = some wr1 := hw1
      rw [hwr] at hw2
      cases hw2
      show w.files.append wr._file lines2 = fs.append wr._file (lines ++ lines2)
      cases hw0 : w.logger._writer with
      | none =>
        obtain ⟨hd, hf⟩ := h4 hw0
        subst hd
        have hl : lines = [] := by
          cases lines with
          | nil => rfl
          | cons x xs => simp at h2
        rw [hf, hl]
        rfl
      | some wr0 =>
        have hs := hsame wr0 hw0
        have he : wr0 = wr := by
          rw [hs, hw0] at hwr
          exact Option.some.inj hwr
        subst he
        rw [h5 wr0 hw0, append_append]

/-- The invariant across a sequence of calls that meet no failure: the run returns. -/
theorem flushInv_run (tfmt : Time → String) (fs : FileSystem) (ops : List Op)
    (pre : List LogObj) (w : World) (hops : ∀ op ∈ ops, op.nominal = true)
    (h : FlushInv tfmt fs pre w) :
    ∃ w1, run tfmt w ops = .returned w1 ∧ FlushInv tfmt fs (pre ++ logged ops) w1 := by
  induction ops generalizing pre w with
  | nil => exact ⟨w, rfl, by simpa [logged] using h⟩
  | cons op ops ih =>
    obtain ⟨w1, hstep, hinv⟩ :=
      flushInv_step tfmt fs pre w op (hops op (List.mem_cons_self _ _)) h
    obtain ⟨w2, hrun, hinv2⟩ :=
      ih (pre ++ logged [op]) w1 (fun o ho => hops o (List.mem_cons_of_mem _ ho)) hinv
    refine ⟨w2, by simp only [run, hstep, hrun], ?_⟩
    have hlog : logged (op :: ops) = logged [op] ++ logged ops := by
      cases op <;> simp [logged]
    rw [hlog, ← List.append_assoc]
    exact hinv2

/-- A run of two sequences is the run of the second from where the first returned. -/
theorem run_append (tfmt : Time → String) (ops1 ops2 : List Op) (w w1 : World)
    (h : run tfmt w ops1 = .returned w1) :
    run tfmt w (ops1 ++ ops2) = run tfmt w1 ops2 := by
  induction ops1 generalizing w with
  | nil =>
    simp only [run] at h
    injection h with h
    subst h
    rfl
  | cons op ops ih =>
    simp only [List.cons_append, run] at h ⊢
    cases hs : step tfmt w op with
    | returned w2 =>
      rw [hs] at h
      exact ih w2 h
    | exited w2 => rw [hs] at h; cases h
    | undefined => rw [hs] at h; cases h

/-- The logged records of a sequence followed by a flush. -/
theorem logged_append_writeLog (ops : List Op) (env : FlushEnv) :
    logged (ops ++ [Op.writeLog env]) = logged ops := by
  induction ops with
  | nil => rfl
  | cons op ops ih => cases op <;> simp [logged, ih]

/-- C3 as amended: for every sequence of `log` calls interleaved with `writeLog` calls (mask
changes and `initialize` may be interleaved too) on a fresh logger over the files `fs`, ended
by a `writeLog`, where every call meets no failure (named levels, `push_back` succeeding,
every file open succeeding and the opened stream taking every line), the run returns with
nothing pending, and the bound file holds what it held at the start followed by the renderings of
all logged records, each once and in the order logged, every other file being unchanged.
Before the last flush the same holds in the form: the lines written so far followed by the
renderings of the pending records are the renderings of everything logged so far. -/
theorem flush_exactly_once (tfmt : Time → String) (fs : FileSystem) (ops : List Op)
    (last : FlushEnv) (hops : ∀ op ∈ ops, op.nominal = true)
    (hlast : (Op.writeLog last).nominal = true) :
    (∃ (w : World) (wr : Writer) (lines : List String),
        run tfmt (World.fresh fs) (ops ++ [Op.writeLog last]) = .returned w
          ∧ w.logger._writer = some wr
          ∧ w.logger._logs = []
          ∧ (logged ops).map (LogObj.parse tfmt) = lines.map some
          ∧ w.files = fs.append wr._file lines)
      ∧ (∃ (w : World) (written : List String),
          run tfmt (World.fresh fs) ops = .returned w
            ∧ written.map some ++ w.logger._logs.map (LogObj.parse tfmt)
                = (logged ops).map (LogObj.parse tfmt)
            ∧ (w.logger._writer = none → written = [] ∧ w.files = fs)
            ∧ (∀ wr, w.logger._writer = some wr → w.files = fs.append wr._file written)) := by
  constructor
  · have hall : ∀ op ∈ ops ++ [Op.writeLog last], op.nominal = true := by
      intro op hop
      rcases List.mem_append.1 hop with h | h
      · exact hops op h
      · rw [List.mem_singleton.1 h]; exact hlast
    obtain ⟨w, hrun, done, lines, h1, h2, _, h4, h5⟩ :=
      flushInv_run tfmt fs (ops ++ [Op.writeLog last]) [] (World.fresh fs) hall
        (flushInv_fresh tfmt fs)
    rw [List.nil_append, logged_append_writeLog] at h1
    -- the last call was a flush: a writer is bound and nothing is pending
    obtain ⟨w0, hrun0, hinv0⟩ :=
      flushInv_run tfmt fs ops [] (World.fresh fs) hops (flushInv_fresh tfmt fs)
    have hsplit : run tfmt (World.fresh fs) (ops ++ [Op.writeLog last])
        = Logger.writeLog tfmt last w0 := by
      rw [run_append tfmt ops [Op.writeLog last] (World.fresh fs) w0 hrun0]
      simp only [run, step]
      cases Logger.writeLog tfmt last w0 <;> rfl
    simp only [Op.nominal, Bool.and_eq_true, Option.isNone_iff_eq_none] at hlast
    obtain ⟨wr, hwr, hlogs, _⟩ := flush_target tfmt last.init w0.logger
    obtain ⟨done0, lines0, g1, _, g3, _, _⟩ := hinv0
    obtain ⟨lines2, hl2⟩ := map_parse_of_named tfmt w0.logger._logs
      (fun e he => g3 e (g1 ▸ List.mem_append_right _ he))
    have hflush := writeLog_eq tfmt last w0 _ wr (w0.files.append wr._file lines2) [] rfl hwr
      (write_ok tfmt wr last.stream w0.files _ lines2 hlast.1 hlast.2
        (by rw [hlogs]; exact hl2))
    rw [hsplit, hflush] at hrun
    injection hrun with hrun
    subst hrun
    have hdone : done = logged ops := by simpa using h1
    subst hdone
    exact ⟨_, wr, lines, by rw [hsplit, hflush], hwr, rfl, h2, h5 wr hwr⟩
  · obtain ⟨w, hrun, done, lines, h1, h2, _, h4, h5⟩ :=
      flushInv_run tfmt fs ops [] (World.fresh fs) hops (flushInv_fresh tfmt fs)
    rw [List.nil_append] at h1
    refine ⟨w, lines, hrun, ?_, ?_, h5⟩
    · rw [← h1, List.map_append, h2]
    · intro hn
      obtain ⟨hd, hf⟩ := h4 hn
      subst hd
      refine ⟨?_, hf⟩
      cases lines with
      | nil => rfl
      | cons x xs => simp at h2

/-- C3 as amended, at a concrete run: an INFO record, a flush, an ERROR record and the
final flush; the file holds the two renderings, in this order. -/
theorem flush_exactly_once_witness :
    ∃ (w : World) (wr : Writer),
      run sampleFmt (World.fresh fun _ => [])
          [Op.log ⟨1, true⟩ Log.INFO "a",
           Op.writeLog { init := ⟨"/home/u", true, true, true, 9⟩, stream := ⟨true, none⟩ },
           Op.log ⟨2, true⟩ Log.ERROR "b",
           Op.writeLog { init := ⟨"/home/u", true, true, true, 12⟩, stream := ⟨true, none⟩ }]
        = .returned w
      ∧ w.logger._writer = some wr
      ∧ w.logger._logs = []
      ∧ w.files = FileSystem.append (fun _ => []) wr._file
          ["[1]-[INFO ]  a", "[2]-[ERROR]  b"] := by
  obtain ⟨⟨w, wr, lines, h1, h2, h3, h4, h5⟩, _⟩ :=
    flush_exactly_once sampleFmt (fun _ => [])
      [Op.log ⟨1, true⟩ Log.INFO "a",
       Op.writeLog { init := ⟨"/home/u", true, true, true, 9⟩, stream := ⟨true, none⟩ },
       Op.log ⟨2, true⟩ Log.ERROR "b"]
      { init := ⟨"/home/u", true, true, true, 12⟩, stream := ⟨true, none⟩ }
      (by decide) (by decide)
  have hl : lines.map some = ["[1]-[INFO ]  a", "[2]-[ERROR]  b"].map some :=
    h4.symm.trans (by decide)
  have hl2 : lines = ["[1]-[INFO ]  a", "[2]-[ERROR]  b"] :=
    List.map_injective_iff.2 (Option.some_injective _) hl
  rw [hl2] at h5
  exact ⟨w, wr, h1, h2, h3, h5⟩


/-! ## The bound path -/

/-- What `initialize` does when no writer is bound: the name is stored, the folder is the
one under the home directory unless it neither exists nor can be made (then it is empty and
the message is written), and the writer is bound to folder followed by file name. -/
theorem initialise_unbound (tfmt : Time → String) (env : InitEnv) (s : Logger)
    (name : String) (h : s._writer = none) :
    s.initialise tfmt env name
      = { s with
          _name := name
          _os := if (!env.dirExists && (!env.mkdirOk || !env.dirExistsAfter)) = true
                 then s._os ++ "LOG_FOLDER could not be set.... take current Direktory" ++ "\n"
                 else s._os
          _writer := some ⟨(if (!env.dirExists && (!env.mkdirOk || !env.dirExistsAfter)) = true
                            then "" else env.homeDir ++ "/" ++ LOG_FOLDER ++ "/")
                           ++ (tfmt env.now ++ "-" ++ name ++ ".log")⟩ } := by
  cases hf : (!env.dirExists && (!env.mkdirOk || !env.dirExistsAfter)) <;>
    simp only [Logger.initialise, h, hf] <;> simp

/-- The destructor does what `writeLog` does. -/
theorem destroy_eq_writeLog (tfmt : Time → String) (env : FlushEnv) (w : World) :
    Logger.destroy tfmt env w = Logger.writeLog tfmt env w := rfl

/-- A `log` call that returns, as a step of the world. -/
theorem step_log_returned (tfmt : Time → String) (w : World) (env : LogEnv) (level : LogType)
    (text : String) (s1 : Logger) (h : w.logger.log tfmt env level text = .returned s1) :
    step tfmt w (Op.log env level text) = .returned { logger := s1, files := w.files } := by
  simp only [step, h]

/-- A run goes on from where its first call returned. -/
theorem run_cons_returned (tfmt : Time → String) (w w1 : World) (op : Op) (ops : List Op)
    (h : step tfmt w op = .returned w1) : run tfmt w (op :: ops) = run tfmt w1 ops := by
  simp only [run, h]

/-- A run of one `writeLog` call is that call. -/
theorem run_single_writeLog (tfmt : Time → String) (env : FlushEnv) (w : World) :
    run tfmt w [Op.writeLog env] = Logger.writeLog tfmt env w := by
  simp only [run, step]
  cases Logger.writeLog tfmt env w <;> rfl

/-- C11: `writeLog` and the destructor on a logger that was never initialized (the pending
records being of named levels, the file opening and the stream taking every line) first
bind the writer under the name `"EVO"`, at the path `initialize("EVO")` chooses, and then
write the whole pending sequence to it and clear it; when a writer is already bound, the
flush keeps that writer and the name; and `log(INFO, "start")`, `log(ERROR, "boom")`,
`writeLog()` on a fresh logger leaves a file at the `"EVO"` path that holds exactly the
INFO line and then the ERROR line (after what it held before, nothing for a new file) and
an empty pending sequence. -/
theorem flush_fallback_name (tfmt : Time → String) (w : World) (env : FlushEnv)
    (hlv : ∀ e ∈ w.logger._logs, e.level ∈ [Log.INFO, Log.DEBUG, Log.WARN, Log.ERROR])
    (hopen : env.stream.openOk = true) (hacc : env.stream.accepted = none) :
    (w.logger._writer = none →
        ∃ (w1 : World) (lines : List String),
          Logger.writeLog tfmt env w = .returned w1
            ∧ Logger.destroy tfmt env w = .returned w1
            ∧ w1.logger._name = "EVO"
            ∧ w1.logger._writer = (w.logger.initialise tfmt env.init "EVO")._writer
            ∧ w1.logger._writer
                = some ⟨(if (!env.init.dirExists
                              && (!env.init.mkdirOk || !env.init.dirExistsAfter)) = true
                          then "" else env.init.homeDir ++ "/" ++ LOG_FOLDER ++ "/")
                        ++ (tfmt env.init.now ++ "-" ++ "EVO" ++ ".log")⟩
            ∧ w.logger._logs.map (LogObj.parse tfmt) = lines.map some
            ∧ (∀ wr, w1.logger._writer = some wr → w1.files = w.files.append wr._file lines)
            ∧ w1.logger._logs = [])
      ∧ (∀ wr0, w.logger._writer = some wr0 →
          ∃ (w1 : World) (lines : List String),
            Logger.writeLog tfmt env w = .returned w1
              ∧ Logger.destroy tfmt env w = .returned w1
              ∧ w1.logger._writer = some wr0
              ∧ w1.logger._name = w.logger._name
              ∧ w.logger._logs.map (LogObj.parse tfmt) = lines.map some
              ∧ w1.files = w.files.append wr0._file lines
              ∧ w1.logger._logs = [])
      ∧ (∀ (fs : FileSystem) (now1 now2 : Time),
          ∃ (w2 : World) (path : String),
            run tfmt (World.fresh fs)
                [Op.log ⟨now1, true⟩ Log.INFO "start", Op.log ⟨now2, true⟩ Log.ERROR "boom",
                 Op.writeLog env] = .returned w2
              ∧ path = (if (!env.init.dirExists
                              && (!env.init.mkdirOk || !env.init.dirExistsAfter)) = true
                          then "" else env.init.homeDir ++ "/" ++ LOG_FOLDER ++ "/")
                        ++ (tfmt env.init.now ++ "-" ++ "EVO" ++ ".log")
              ∧ w2.logger._writer = some ⟨path⟩
              ∧ w2.logger._name = "EVO"
              ∧ w2.logger._logs = []
              ∧ w2.files = fs.append path
                  ["[" ++ tfmt now1 ++ "]-[" ++ "INFO " ++ "]  " ++ "start",
                   "[" ++ tfmt now2 ++ "]-[" ++ "ERROR" ++ "]  " ++ "boom"]
              ∧ (fs path = [] →
                  w2.files path
                    = ["[" ++ tfmt now1 ++ "]-[" ++ "INFO " ++ "]  " ++ "start",
                       "[" ++ tfmt now2 ++ "]-[" ++ "ERROR" ++ "]  " ++ "boom"])) := by
  have unbound : ∀ (v : World) (lines : List String), v.logger._writer = none →
      v.logger._logs.map (LogObj.parse tfmt) = lines.map some →
      Logger.writeLog tfmt env v
        = .returned
            { logger := { v.logger.initialise tfmt env.init "EVO" with _logs := [] }
              files := v.files.append
                ((if (!env.init.dirExists
                        && (!env.init.mkdirOk || !env.init.dirExistsAfter)) = true
                    then "" else env.init.homeDir ++ "/" ++ LOG_FOLDER ++ "/")
                  ++ (tfmt env.init.now ++ "-" ++ "EVO" ++ ".log")) lines } := by
    intro v lines hv hl
    have hs : v.logger.initialise tfmt env.init "EVO"
        = (if v.logger._writer.isNone then v.logger.initialise tfmt env.init "EVO"
            else v.logger) := by simp [hv]
    have hwr : (v.logger.initialise tfmt env.init "EVO")._writer
        = some (Writer.mk ((if (!env.init.dirExists
                        && (!env.init.mkdirOk || !env.init.dirExistsAfter)) = true
                    then "" else env.init.homeDir ++ "/" ++ LOG_FOLDER ++ "/")
                  ++ (tfmt env.init.now ++ "-" ++ "EVO" ++ ".log"))) := by
      rw [initialise_unbound tfmt env.init v.logger "EVO" hv]
    exact writeLog_eq tfmt env v _ _ _ [] hs hwr
      (write_ok tfmt _ env.stream v.files _ lines hopen hacc
        (by rw [initialise_logs]; exact hl))
  refine ⟨?_, ?_, ?_⟩
  · intro hnone
    obtain ⟨lines, hl⟩ := map_parse_of_named tfmt w.logger._logs hlv
    have hrun := unbound w lines hnone hl
    refine ⟨_, lines, hrun, hrun, ?_, rfl, ?_, hl, ?_, rfl⟩
    · show (w.logger.initialise tfmt env.init "EVO")._name = "EVO"
      rw [initialise_unbound tfmt env.init w.logger "EVO" hnone]
    · show (w.logger.initialise tfmt env.init "EVO")._writer = _
      rw [initialise_unbound tfmt env.init w.logger "EVO" hnone]
    · intro wr hwr
      have hwr1 : (w.logger.initialise tfmt env.init "EVO")._writer = some wr := hwr
      rw [initialise_unbound tfmt env.init w.logger "EVO" hnone] at hwr1
      cases hwr1
      rfl
  · intro wr0 hwr0
    obtain ⟨lines, hl⟩ := map_parse_of_named tfmt w.logger._logs hlv
    have hs : w.logger = (if w.logger._writer.isNone
        then w.logger.initialise tfmt env.init "EVO" else w.logger) := by simp [hwr0]
    have hrun := writeLog_eq tfmt env w _ wr0 _ [] hs hwr0
      (write_ok tfmt wr0 env.stream w.files _ lines hopen hacc hl)
    exact ⟨_, lines, hrun, hrun, hwr0, rfl, hl, rfl, rfl⟩
  · intro fs now1 now2
    obtain ⟨s1, l1, hg1, _, _, hw1⟩ :=
      log_returns tfmt now1 Logger.new Log.INFO "start" (by decide)
    obtain ⟨s2, l2, hg2, _, _, hw2⟩ :=
      log_returns tfmt now2 s1 Log.ERROR "boom" (by decide)
    rw [hw1] at hw2
    rw [hg1] at hg2
    have hw3 : s2._writer = none := hw2
    have hl : s2._logs.map (LogObj.parse tfmt)
        = ["[" ++ tfmt now1 ++ "]-[" ++ "INFO " ++ "]  " ++ "start",
           "[" ++ tfmt now2 ++ "]-[" ++ "ERROR" ++ "]  " ++ "boom"].map some := by
      rw [hg2]; rfl
    have hrun := unbound { logger := s2, files := fs } _ hw3 hl
    have hrun2 : run tfmt (World.fresh fs)
        [Op.log ⟨now1, true⟩ Log.INFO "start", Op.log ⟨now2, true⟩ Log.ERROR "boom",
         Op.writeLog env] = Logger.writeLog tfmt env { logger := s2, files := fs } := by
      have st1 : step tfmt (World.fresh fs) (Op.log ⟨now1, true⟩ Log.INFO "start")
          = .returned { logger := s1, files := fs } :=
        step_log_returned tfmt (World.fresh fs) _ _ _ s1 l1
      have st2 : step tfmt { logger := s1, files := fs } (Op.log ⟨now2, true⟩ Log.ERROR "boom")
          = .returned { logger := s2, files := fs } :=
        step_log_returned tfmt { logger := s1, files := fs } _ _ _ s2 l2
      rw [run_cons_returned tfmt _ _ _ _ st1, run_cons_returned tfmt _ _ _ _ st2]
      exact run_single_writeLog tfmt env _
    rw [hrun] at hrun2
    refine ⟨_, _, hrun2, rfl, ?_, ?_, rfl, rfl, ?_⟩
    · show (s2.initialise tfmt env.init "EVO")._writer = _
      rw [initialise_unbound tfmt env.init s2 "EVO" hw3]
    · show (s2.initialise tfmt env.init "EVO")._name = _
      rw [initialise_unbound tfmt env.init s2 "EVO" hw3]
    · intro hfs
      simp only [FileSystem.append, if_true, hfs, List.nil_append]

/-- C11 at a concrete state: two pending records, no writer, the folder exists; the flush
binds `/home/u/.evocortex/9-EVO.log` and the file holds the two lines. -/
theorem flush_fallback_name_witness :
    ∃ w1 : World,
      Logger.writeLog sampleFmt
          { init := ⟨"/home/u", true, true, true, 9⟩, stream := ⟨true, none⟩ }
          { logger := { Logger.new with
                        _logs := [{ stamp := 1, level := Log.INFO, text := "start" },
                                  { stamp := 2, level := Log.ERROR, text := "boom" }] },
            files := fun _ => [] } = .returned w1
      ∧ w1.logger._name = "EVO"
      ∧ w1.logger._writer = some ⟨"/home/u/.evocortex/9-EVO.log"⟩
      ∧ w1.files "/home/u/.evocortex/9-EVO.log" = ["[1]-[INFO ]  start", "[2]-[ERROR]  boom"]
      ∧ w1.logger._logs = [] := by
  obtain ⟨w1, lines, h1, _, h3, _, h5, h6, h7, h8⟩ :=
    (flush_fallback_name sampleFmt
      { logger := { Logger.new with
                    _logs := [{ stamp := 1, level := Log.INFO, text := "start" },
                              { stamp := 2, level := Log.ERROR, text := "boom" }] },
        files := fun _ => [] }
      { init := ⟨"/home/u", true, true, true, 9⟩, stream := ⟨true, none⟩ }
      (by decide) rfl rfl).1 rfl
  have h5a : w1.logger._writer = some ⟨"/home/u/.evocortex/9-EVO.log"⟩ := h5.trans (by decide)
  have hl : lines.map some = ["[1]-[INFO ]  start", "[2]-[ERROR]  boom"].map some :=
    h6.symm.trans (by decide)
  have hl2 : lines = ["[1]-[INFO ]  start", "[2]-[ERROR]  boom"] :=
    List.map_injective_iff.2 (Option.some_injective _) hl
  refine ⟨w1, h1, h3, h5a, ?_, h8⟩
  rw [h7 _ h5a, hl2]
  rfl

/-! ## Where the code leaves the specification -/

/-- C12, where the code leaves the claim: the file opens but the stream takes no line; then
`Writer::write` still clears the vector, at the level of `Writer::write` and of `writeLog`:
the file holds nothing and the record is gone from the buffer. -/
theorem write_failure_clears :
    (Writer.write sampleFmt ⟨"f.log"⟩ ⟨true, some 0⟩ (fun _ => [])
        [{ stamp := 1, level := Log.INFO, text := "a" }]).map (fun r => (r.1 "f.log", r.2))
      = some ([], [])
    ∧ ∃ w1 : World,
        Logger.writeLog sampleFmt
            { init := ⟨"/home/u", true, true, true, 9⟩, stream := ⟨true, some 0⟩ }
            { logger := { Logger.new with
                          _logs := [{ stamp := 1, level := Log.INFO, text := "a" }]
                          _writer := some ⟨"f.log"⟩ },
              files := fun _ => [] } = .returned w1
          ∧ w1.logger._logs = []
          ∧ w1.files "f.log" = [] :=
  ⟨by decide, _, rfl, rfl, rfl⟩

/-- C13, where the claim fails: for the level values 9, 16 and `ALL` the table `LEVEL_STR`
has no entry, so the formatter is not defined there. -/
theorem parse_out_of_table :
    LogObj.parse sampleFmt { stamp := 0, level := 9, text := "x" } = none
      ∧ LogObj.parse sampleFmt { stamp := 0, level := 16, text := "x" } = none
      ∧ LogObj.parse sampleFmt { stamp := 0, level := Log.ALL, text := "x" } = none := by
  decide

/-- C13 as amended: for a record whose level value is 0, 3, 5, 6 or 7 (the values within
the table that are no named level) the formatter is defined and the label is the level
value written in decimal; for a level value of 9 or more the table has no entry and the
formatter is not defined. -/
theorem parse_unnamed_levels (tfmt : Time → String) (stamp : Time) (text : String)
    (level : LogType) :
    (level ∈ [0, 3, 5, 6, 7] →
        LogObj.parse tfmt { stamp := stamp, level := level, text := text }
          = some ("[" ++ tfmt stamp ++ "]-[" ++ toString level ++ "]  " ++ text))
      ∧ (9 ≤ level →
          LogObj.parse tfmt { stamp := stamp, level := level, text := text } = none) := by
  constructor
  · intro h
    simp only [List.mem_cons, List.mem_singleton, List.not_mem_nil, or_false] at h
    rcases h with h | h | h | h | h <;> subst h <;> rfl
  · intro h
    have hn : LEVEL_STR[level]? = none := List.getElem?_eq_none h
    simp only [LogObj.parse, hn]

/-- C13 as amended, at the level value 3 and at the level value 9. -/
theorem parse_unnamed_levels_witness :
    LogObj.parse sampleFmt { stamp := 4, level := 3, text := "x" } = some "[4]-[3]  x"
      ∧ LogObj.parse sampleFmt { stamp := 4, level := 9, text := "x" } = none :=
  ⟨((parse_unnamed_levels sampleFmt 4 "x" 3).1 (by decide)).trans (by decide),
   (parse_unnamed_levels sampleFmt 4 "x" 9).2 (by decide)⟩

/-- C14, where the claim fails: when the folder neither exists nor can be made, the writer
is bound to the bare file name `7-A.log`, which is not of the form
`<base>/.evocortex/7-A.log` for any `<base>`. -/
theorem initialise_fallback_path :
    (Logger.new.initialise sampleFmt ⟨"/home/u", false, false, false, 7⟩ "A")._writer
        = some ⟨"7-A.log"⟩
      ∧ ¬ ∃ base : String, "7-A.log" = base ++ "/" ++ LOG_FOLDER ++ "/" ++ "7-A.log" := by
  refine ⟨by decide, ?_⟩
  rintro ⟨base, h⟩
  have hlen := congrArg String.length h
  simp only [String.length_append] at hlen
  have h1 : "7-A.log".length = 7 := by decide
  have h2 : LOG_FOLDER.length = 10 := by decide
  have h3 : "/".length = 1 := by decide
  omega

/-- C14 as amended: for every name, `initialize(name)` on a logger with no writer bound
stores the name and binds the writer to `<home>/.evocortex/<timestamp>-<name>.log` when the
log folder exists or can be made, and otherwise to the bare relative file name
`<timestamp>-<name>.log` (the current working directory, without the `.evocortex` folder)
after writing its message to the stream; the file name is always the time string of
`Time::now()`, then `"-"`, then the name, then `".log"`. -/
theorem initialise_path (tfmt : Time → String) (env : InitEnv) (s : Logger) (name : String)
    (h : s._writer = none) :
    (s.initialise tfmt env name)._name = name
      ∧ ((env.dirExists = true ∨ (env.mkdirOk = true ∧ env.dirExistsAfter = true)) →
          (s.initialise tfmt env name)._writer
              = some ⟨env.homeDir ++ "/" ++ LOG_FOLDER ++ "/"
                      ++ (tfmt env.now ++ "-" ++ name ++ ".log")⟩
            ∧ (s.initialise tfmt env name)._os = s._os)
      ∧ (¬ (env.dirExists = true ∨ (env.mkdirOk = true ∧ env.dirExistsAfter = true)) →
          (s.initialise tfmt env name)._writer
              = some ⟨tfmt env.now ++ "-" ++ name ++ ".log"⟩
            ∧ (s.initialise tfmt env name)._os
                = s._os ++ "LOG_FOLDER could not be set.... take current Direktory" ++ "\n")
      ∧ LOG_FOLDER = ".evocortex" := by
  rw [initialise_unbound tfmt env s name h]
  refine ⟨rfl, ?_, ?_, rfl⟩
  · intro hok
    have hf : (!env.dirExists && (!env.mkdirOk || !env.dirExistsAfter)) = false := by
      rcases hok with h1 | ⟨h1, h2⟩
      · simp [h1]
      · simp [h1, h2]
    simp [hf]
  · intro hbad
    have hf : (!env.dirExists && (!env.mkdirOk || !env.dirExistsAfter)) = true := by
      cases h1 : env.dirExists <;> cases h2 : env.mkdirOk <;> cases h3 : env.dirExistsAfter <;>
        simp_all
    simp [hf]

/-- C14 as amended, at two concrete calls on a fresh logger: the folder exists, and the
folder neither exists nor can be made. -/
theorem initialise_path_witness :
    (Logger.new.initialise sampleFmt ⟨"/home/u", true, false, false, 7⟩ "A")._writer
        = some ⟨"/home/u/.evocortex/7-A.log"⟩
      ∧ (Logger.new.initialise sampleFmt ⟨"/home/u", false, false, false, 7⟩ "A")._writer
        = some ⟨"7-A.log"⟩ :=
  ⟨((initialise_path sampleFmt ⟨"/home/u", true, false, false, 7⟩ Logger.new "A" rfl).2.1
      (by decide)).1.trans (by decide),
   ((initialise_path sampleFmt ⟨"/home/u", false, false, false, 7⟩ Logger.new "A" rfl).2.2.1
      (by decide)).1.trans (by decide)⟩

/-- C16, where the code leaves the claim: when `push_back` throws, `log` ends the process
with every pending record still in `_logs` (the `_logs.clear()` stands after `exit(0)`),
only the message being written; and the destructor that `exit` runs on the logger then
writes those records to the file: with one pending record, the file gets its line. -/
theorem bad_alloc_keeps_logs :
    (∀ (tfmt : Time → String) (now : Time) (s : Logger) (level : LogType) (text : String),
        s.log tfmt { now := now, pushOk := false } level text
          = .exited { s with
              _os := s._os ++ ("Bad alloc in _logs.push_back... will delete all logs "
                                ++ "to prevent more damage") ++ "\n" })
      ∧ ∃ (s1 : Logger) (w1 : World),
          Logger.log sampleFmt { now := 2, pushOk := false }
              { Logger.new with _logs := [{ stamp := 1, level := Log.INFO, text := "a" }] }
              Log.ERROR "b" = .exited s1
            ∧ s1._logs = [{ stamp := 1, level := Log.INFO, text := "a" }]
            ∧ Logger.destroy sampleFmt
                { init := ⟨"/home/u", true, true, true, 9⟩, stream := ⟨true, none⟩ }
                { logger := s1, files := fun _ => [] } = .returned w1
            ∧ w1.files "/home/u/.evocortex/9-EVO.log" = ["[1]-[INFO ]  a"] :=
  ⟨fun _ _ _ _ _ => rfl, _, _, rfl, rfl, rfl, by decide⟩

/-- C3, where the claim fails: one INFO record is logged and flushed, the file opens, but
the stream takes no line; the run returns with nothing pending and every file empty, so the
record, whose rendering is `[1]-[INFO ]  a`, is in no file although every open succeeded. -/
theorem flush_drops_on_write_failure :
    ∃ w : World,
      run sampleFmt (World.fresh fun _ => [])
          [Op.log ⟨1, true⟩ Log.INFO "a",
           Op.writeLog { init := ⟨"/home/u", true, true, true, 9⟩, stream := ⟨true, some 0⟩ }]
        = .returned w
      ∧ (logged [Op.log ⟨1, true⟩ Log.INFO "a",
            Op.writeLog { init := ⟨"/home/u", true, true, true, 9⟩,
                          stream := ⟨true, some 0⟩ }]).map (LogObj.parse sampleFmt)
          = [some "[1]-[INFO ]  a"]
      ∧ w.logger._writer = some ⟨"/home/u/.evocortex/9-EVO.log"⟩
      ∧ w.logger._logs = []
      ∧ ∀ p, w.files p = [] := by
  refine ⟨{ logger := { _logs := [], _current_log_level := Log.ALL, _name := "EVO",
                        _writer := some ⟨"/home/u/.evocortex/9-EVO.log"⟩,
                        _os := "[1]-[INFO ]  a\x1b[49m\x1b[39m\n" },
            files := FileSystem.append (fun _ => []) "/home/u/.evocortex/9-EVO.log" [] },
    rfl, by decide, rfl, rfl, ?_⟩
  intro p
  simp [FileSystem.append]

/-- C4, where the claim fails: one INFO record is pending, a first flush cannot open the
file and keeps the record, and a second flush opens the file but its stream takes no line;
the second flush returns with nothing pending and every file empty, so the record was not
appended although the open succeeded. -/
theorem later_flush_drops_on_write_failure :
    ∃ (w1 w2 : World),
      Logger.writeLog sampleFmt
          { init := ⟨"/home/u", true, true, true, 9⟩, stream := ⟨false, none⟩ }
          { logger := { Logger.new with
                        _logs := [{ stamp := 1, level := Log.INFO, text := "a" }] },
            files := fun _ => [] } = .returned w1
      ∧ w1.logger._logs = [{ stamp := 1, level := Log.INFO, text := "a" }]
      ∧ Logger.writeLog sampleFmt
          { init := ⟨"/home/u", true, true, true, 12⟩, stream := ⟨true, some 0⟩ } w1
          = .returned w2
      ∧ w2.logger._logs = []
      ∧ ∀ p, w2.files p = [] := by
  refine ⟨{ logger := { _logs := [{ stamp := 1, level := Log.INFO, text := "a" }],
                        _current_log_level := Log.ALL, _name := "EVO",
                        _writer := some ⟨"/home/u/.evocortex/9-EVO.log"⟩, _os := "" },
            files := fun _ => [] },
          { logger := { _logs := [], _current_log_level := Log.ALL, _name := "EVO",
                        _writer := some ⟨"/home/u/.evocortex/9-EVO.log"⟩, _os := "" },
            files := FileSystem.append (fun _ => []) "/home/u/.evocortex/9-EVO.log" [] },
    rfl, rfl, rfl, rfl, ?_⟩
  intro p
  simp [FileSystem.append]

end evo
